import Mathlib

/-!
Shallow embedding of the VoiceCast audio ML data pipeline
(`ml_pipeline/data_processing/data_processor.py`,
`ml_pipeline/pipeline_utils.py`, `ml_pipeline/run_complete_pipeline.py`)
and proofs about its specified behaviour.

Audio signals are modelled as lists of rationals (waveform amplitudes);
machine floats are modelled by exact rational arithmetic.  Fallible
external calls (librosa decode, feature extraction, GCS writes) are
modelled with `Except`, and the Python `try/except` structure of each
function is embedded explicitly as a total wrapper around an
`Except`-valued body.
-/

namespace VoiceCast

/-- Configuration of `AudioPreprocessor.__init__`
(`data_processor.py:35`): sample rate, FFT/hop parameters and the
duration bounds.  Defaults: 22050, 2048, 512, 80, 30.0, 1.0. -/
structure PreprocConfig where
  sample_rate : ℕ
  n_fft : ℕ
  hop_length : ℕ
  n_mels : ℕ
  max_duration : ℚ
  min_duration : ℚ
deriving DecidableEq

/-- The default `AudioPreprocessor` configuration
(`data_processor.py:35`-`41`). -/
def stdConfig : PreprocConfig :=
  { sample_rate := 22050, n_fft := 2048, hop_length := 512, n_mels := 80
    max_duration := 30, min_duration := 1 }

/-- Embeds `np.max(np.abs(audio))`: the peak absolute amplitude of a signal
(0 for the empty signal). -/
def peakAbs (audio : List ℚ) : ℚ :=
  (audio.map (fun x => |x|)).foldr max 0

/-- Embeds `AudioPreprocessor.normalize_audio` (`data_processor.py:81`-`85`):
divide by the peak absolute amplitude when it is positive, otherwise
return the signal unchanged. -/
def normalize_audio (audio : List ℚ) : List ℚ :=
  if peakAbs audio > 0 then audio.map (fun x => x / peakAbs audio) else audio

/-- Embeds `int(self.max_duration * self.sample_rate)`: the default target
length used by `trim_or_pad_audio` (`data_processor.py:68`-`69`). -/
def defaultTargetLength (cfg : PreprocConfig) : ℕ :=
  (⌊cfg.max_duration * (cfg.sample_rate : ℚ)⌋).toNat

/-- Embeds `AudioPreprocessor.trim_or_pad_audio` (`data_processor.py:66`-`79`):
truncate to `target_length` when longer, zero-pad at the end when
shorter; the target defaults to `max_duration * sample_rate`. -/
def trim_or_pad_audio (cfg : PreprocConfig) (audio : List ℚ)
    (target_length : Option ℕ) : List ℚ :=
  let target := target_length.getD (defaultTargetLength cfg)
  if audio.length > target then
    audio.take target
  else if audio.length < target then
    audio ++ List.replicate (target - audio.length) 0
  else
    audio

/-- Embeds `AudioPreprocessor.validate_audio_duration`
(`data_processor.py:61`-`64`): the duration `len(audio)/sample_rate`
must lie within `[min_duration, max_duration]`. -/
def validate_audio_duration (cfg : PreprocConfig) (audio : List ℚ) : Bool :=
  decide (cfg.min_duration ≤ (audio.length : ℚ) / (cfg.sample_rate : ℚ) ∧
          (audio.length : ℚ) / (cfg.sample_rate : ℚ) ≤ cfg.max_duration)

section PeakLemmas

theorem peakAbs_nonneg (audio : List ℚ) : 0 ≤ peakAbs audio := by
  induction audio with
  | nil => simp [peakAbs]
  | cons a t ih =>
      simp only [peakAbs, List.map_cons, List.foldr_cons]
      exact le_max_of_le_right ih

theorem abs_le_peakAbs (audio : List ℚ) :
    ∀ x ∈ audio, |x| ≤ peakAbs audio := by
  induction audio with
  | nil => simp
  | cons a t ih =>
      intro x hx
      simp only [List.mem_cons] at hx
      rcases hx with rfl | hx
      · simp only [peakAbs, List.map_cons, List.foldr_cons]
        exact le_max_left _ _
      · simp only [peakAbs, List.map_cons, List.foldr_cons]
        exact le_max_of_le_right (ih x hx)

theorem peakAbs_eq_zero_iff (audio : List ℚ) :
    peakAbs audio = 0 ↔ ∀ x ∈ audio, x = 0 := by
  constructor
  · intro h x hx
    have := abs_le_peakAbs audio x hx
    rw [h] at this
    exact abs_nonpos_iff.mp this
  · intro h
    induction audio with
    | nil => simp [peakAbs]
    | cons a t ih =>
        have ha : a = 0 := h a (List.mem_cons_self a t)
        have ht : peakAbs t = 0 := ih (fun x hx => h x (List.mem_cons_of_mem a hx))
        simp only [peakAbs, List.map_cons, List.foldr_cons] at *
        rw [ha, ht]
        simp

end PeakLemmas

/-! ## Per-file processing (`AudioPreprocessor.process_audio_file`) -/

/-- A raw audio file as the pipeline sees it: the outcome of
`librosa.load` (a decoded waveform, or a decode exception) and whether
the feature-extraction calls on it raise.  This abstracts the two
external fallible operations of `process_audio_file`
(`data_processor.py:150`-`181`). -/
structure AudioFile where
  path : String
  load : Except Unit (List ℚ)
  extractOk : Bool

/-- The record built by `process_audio_file` on success
(`data_processor.py:168`-`176`); the feature arrays are summarised by
the fixed-length audio they are extracted from. -/
structure ProcessedRecord where
  file_path : String
  audio_data : List ℚ
  sample_rate : ℕ
  duration : ℚ
deriving DecidableEq

/-- The typed errors that can escape the body of `process_audio_file`
before its `except` clause: a decode failure raised by `load_audio`
(`data_processor.py:57`-`59`) or an exception from one of the feature
extractors (`data_processor.py:101`-`103`, `116`-`118`, `146`-`148`). -/
inductive ProcError where
  | loadError
  | extractError
deriving DecidableEq

/-- The `try` body of `process_audio_file` (`data_processor.py:152`-`178`):
load, validate duration (returning `none` on a skip), normalize,
trim/pad, extract features.  Exceptions from load or extraction escape
as typed errors. -/
def process_audio_file_body (cfg : PreprocConfig) (f : AudioFile) :
    Except ProcError (Option ProcessedRecord) :=
  match f.load with
  | .error _ => .error .loadError
  | .ok audio =>
    if validate_audio_duration cfg audio = false then
      .ok none
    else
      let audio1 := normalize_audio audio
      let audio2 := trim_or_pad_audio cfg audio1 none
      if f.extractOk = false then
        .error .extractError
      else
        .ok (some { file_path := f.path, audio_data := audio2
                    sample_rate := cfg.sample_rate
                    duration := (audio2.length : ℚ) / (cfg.sample_rate : ℚ) })

/-- Embeds `AudioPreprocessor.process_audio_file` (`data_processor.py:150`-`181`):
the `try` body with the enclosing `except Exception: return None`
handler, so every typed error is converted into `none`. -/
def process_audio_file (cfg : PreprocConfig) (f : AudioFile) :
    Option ProcessedRecord :=
  match process_audio_file_body cfg f with
  | .ok r => r
  | .error _ => none

/-- Embeds `DataProcessor.process_audio_files` (`data_processor.py:295`-`329`):
each file is processed independently by `process_audio_file`; `None`
results are dropped and the surviving records are collected.  The
worker pool returns results in an unspecified completion order, which
the theorems model by quantifying over permutations of the input. -/
def process_audio_files (cfg : PreprocConfig) (files : List AudioFile) :
    List ProcessedRecord :=
  files.filterMap (process_audio_file cfg)

/-- A duration skip: the file decodes but its duration falls outside
`[min_duration, max_duration]` (`data_processor.py:157`-`159`). -/
def isDurationSkip (cfg : PreprocConfig) (f : AudioFile) : Bool :=
  match f.load with
  | .error _ => false
  | .ok audio => !(validate_audio_duration cfg audio)

/-- A hard per-file failure: the decode raises, or the file is valid but
feature extraction raises (`data_processor.py:179`-`181`). -/
def isHardFailure (cfg : PreprocConfig) (f : AudioFile) : Bool :=
  match f.load with
  | .error _ => true
  | .ok audio => validate_audio_duration cfg audio && !f.extractOk

/-! ## Data augmentation (`DataAugmentation`) -/

/-- An exception raised inside a librosa augmentation effect. -/
inductive AugError where
  | transformFailed
deriving DecidableEq

/-- Embeds `DataAugmentation.time_stretch` (`data_processor.py:195`-`201`):
calls `librosa.effects.time_stretch` (modelled as the fallible
function `lib`) and returns the unmodified input on any exception. -/
def time_stretch (lib : List ℚ → ℚ → Except AugError (List ℚ))
    (audio : List ℚ) (rate : ℚ) : List ℚ :=
  match lib audio rate with
  | .ok stretched => stretched
  | .error _ => audio

/-- Embeds `DataAugmentation.pitch_shift` (`data_processor.py:203`-`209`):
calls `librosa.effects.pitch_shift` (modelled as the fallible function
`lib`) and returns the unmodified input on any exception. -/
def pitch_shift (lib : List ℚ → ℚ → Except AugError (List ℚ))
    (audio : List ℚ) (n_steps : ℚ) : List ℚ :=
  match lib audio n_steps with
  | .ok shifted => shifted
  | .error _ => audio

/-- Embeds `DataAugmentation.add_noise` (`data_processor.py:190`-`193`):
element-wise addition of a noise signal drawn with the input's shape
(`np.random.normal(0, level, audio.shape)`), so lengths agree. -/
def add_noise (audio noise : List ℚ) : List ℚ :=
  List.zipWith (fun a n => a + n) audio noise

/-! ## Feature-vector lengths (`DataProcessor.prepare_dataset`) -/

/-- Modelled from the spec: the feature extractors use "consistent
window/hop parameters across all features so frame-axis lengths align",
and frame counts "are deterministic given configuration" — the librosa
centred framing yields `len / hop_length + 1` frames for a signal of
length `len`. -/
def numFeatureFrames (hop_length audioLen : ℕ) : ℕ :=
  audioLen / hop_length + 1

/-- Length of the vector built by `prepare_dataset`
(`data_processor.py:408`-`414`): flattened mel spectrogram
(`n_mels` rows), flattened MFCC (13 rows, the `extract_mfcc` default),
and the three 1-D descriptors (centroid, rolloff, zero-crossing rate),
each with `numFeatureFrames` columns. -/
def featureVectorLength (n_mels n_mfcc hop_length audioLen : ℕ) : ℕ :=
  n_mels * numFeatureFrames hop_length audioLen +
    n_mfcc * numFeatureFrames hop_length audioLen +
    3 * numFeatureFrames hop_length audioLen

/-- Modelled from the spec: `time_stretch` "resamples the temporal axis
by `rate`", so at the deterministic fan-out rate 1.1 the output signal
has length `⌊len / 1.1⌋ = ⌊10·len / 11⌋`. -/
def timeStretchedLength (audioLen : ℕ) : ℕ :=
  (10 * audioLen) / 11

/-- Audio lengths of the four records `augment_data` appends per input
record (`data_processor.py:350`-`376`): the original, the
noise-augmented copy (`add_noise` preserves length), the
`time_stretch(rate=1.1)` variant, and the `pitch_shift(n_steps=1.0)`
variant (length-preserving: "without changing duration",
`data_processor.py:204`). -/
def augmentedAudioLengths (audioLen : ℕ) : List ℕ :=
  [audioLen, audioLen, timeStretchedLength audioLen, audioLen]

/-- Lengths of the feature vectors `prepare_dataset` builds for the four
records of one `augment_data` fan-out: features are re-extracted from
each variant's audio (`data_processor.py:371`-`374`). -/
def augmentedVectorLengths (n_mels n_mfcc hop_length audioLen : ℕ) : List ℕ :=
  (augmentedAudioLengths audioLen).map
    (featureVectorLength n_mels n_mfcc hop_length)

/-! ## Progress reporting traces -/

/-- The progress value written by `process_audio_files` after the
completion with 0-based index `i` out of `total` files:
`0.3 + (i / len(audio_files)) * 0.4` (`data_processor.py:318`). -/
def processFilesProgress (total i : ℕ) : ℚ :=
  3/10 + ((i : ℚ) / (total : ℚ)) * (4/10)

/-- The sequence of progress values `process_audio_files` writes to the
status record: the stage-entry update at 0.3 (`data_processor.py:298`)
followed by one update per completion (`data_processor.py:317`-`322`). -/
def processFilesProgressTrace (total : ℕ) : List ℚ :=
  3/10 :: (List.range total).map (processFilesProgress total)

/-- The progress value written by `download_raw_data` after downloading
the file with 0-based index `i` out of `total`:
`0.1 + (i / len(audio_files)) * 0.2` (`data_processor.py:280`). -/
def downloadProgress (total i : ℕ) : ℚ :=
  1/10 + ((i : ℚ) / (total : ℚ)) * (2/10)

/-- Progress values written by `download_raw_data`: the stage entry at
0.1 (`data_processor.py:257`) plus one update per downloaded file. -/
def downloadProgressTrace (total : ℕ) : List ℚ :=
  1/10 :: (List.range total).map (downloadProgress total)

/-- The progress value written by `augment_data` after augmenting the
record with 0-based index `i` out of `total`:
`0.7 + (i / len(processed_data)) * 0.15` (`data_processor.py:379`). -/
def augmentProgress (total i : ℕ) : ℚ :=
  7/10 + ((i : ℚ) / (total : ℚ)) * (15/100)

/-- Progress values written by `augment_data` when augmentation is
enabled: the stage entry at 0.7 (`data_processor.py:344`) plus one
update per record. -/
def augmentProgressTrace (total : ℕ) : List ℚ :=
  7/10 :: (List.range total).map (augmentProgress total)

/-- The sequence of progress values `DataProcessor.run_complete_pipeline`
writes on the success path (`data_processor.py:530`-`561`): download
(`nFiles` files), parallel processing (`nFiles` files), augmentation
(`nRecs` records), then the fixed checkpoints 0.85 (`prepare_dataset`),
0.95 (`save_processed_data`) and the terminal 1.0. -/
def pipelineSuccessTrace (nFiles nRecs : ℕ) : List ℚ :=
  downloadProgressTrace nFiles ++ processFilesProgressTrace nFiles ++
    augmentProgressTrace nRecs ++ [85/100, 95/100, 1]

/-- The sequence of progress values written when the augmentation stage
raises after processing completed: the stage's own handler writes a
`failed` update at progress 0.7 (`data_processor.py:388`-`392`) and the
top-level handler of `run_complete_pipeline` then writes a `failed`
update at progress 0.0 (`data_processor.py:563`-`568`). -/
def pipelineFailAtAugmentTrace (nFiles : ℕ) : List ℚ :=
  downloadProgressTrace nFiles ++ processFilesProgressTrace nFiles ++
    [7/10, 0]

/-! ## Pipeline status tracker (`PipelineStatus`, `pipeline_utils.py`) -/

/-- The JSON status object built by `PipelineStatus.update_status`
(`pipeline_utils.py:198`-`205`).  Timestamps are modelled as naturals
(the wall clock value observed by `timestamp_now()` at the call);
metadata values are modelled as strings. -/
structure StatusRecord where
  pipeline_id : String
  status : String
  progress : ℚ
  message : String
  timestamp : ℕ
  metadata : List (String × String)
deriving DecidableEq

/-- The external key-value blob namespace holding one status blob per
pipeline id. -/
def StatusStore : Type := List (String × StatusRecord)

instance : DecidableEq StatusStore := by
  unfold StatusStore
  infer_instance

/-- Modelled from the spec: the GCS blob upload used by `update_status`
("a key-value blob store addressed by `pipeline_id`"; the record is
"overwritten in place on each update, not appended").  Writing to an
existing key replaces its record; a new key is appended. -/
def putBlob : StatusStore → String → StatusRecord → StatusStore
  | [], k, r => [(k, r)]
  | (k', r') :: rest, k, r =>
      if k' = k then (k, r) :: rest else (k', r') :: putBlob rest k r

/-- The blob name used for a pipeline's status record:
`f"{self.status_prefix}{pipeline_id}.json"` with prefix
`"pipeline_status/"` (`pipeline_utils.py:192`, `212`). -/
def statusBlobName (pipeline_id : String) : String :=
  "pipeline_status/" ++ pipeline_id ++ ".json"

/-- The `status_data` dictionary built by `update_status`
(`pipeline_utils.py:198`-`205`); a missing metadata argument defaults
to the empty mapping (`metadata or {}`). -/
def mkStatusData (pipeline_id status : String) (progress : ℚ)
    (message : String) (metadata : Option (List (String × String)))
    (timestamp : ℕ) : StatusRecord :=
  { pipeline_id := pipeline_id, status := status, progress := progress
    message := message, timestamp := timestamp
    metadata := metadata.getD [] }

/-- Which of the three external side effects of `update_status` succeed:
writing the temp JSON file (`json.dump`), uploading it to GCS, and
removing the temp file. -/
structure StatusIOBehavior where
  serializeOk : Bool
  uploadOk : Bool
  cleanupOk : Bool

/-- All three side effects succeed. -/
def statusIOOk : StatusIOBehavior :=
  { serializeOk := true, uploadOk := true, cleanupOk := true }

/-- The errors the `try` body of `update_status` can raise. -/
inductive StatusErr where
  | serializeFailed
  | uploadFailed
  | cleanupFailed
deriving DecidableEq

/-- The `try` body of `PipelineStatus.update_status`
(`pipeline_utils.py:197`-`219`): build the record, serialize it, upload
it to the status blob (the durable write), then remove the temp file.
An error carries the store as left by the steps that did run: a
serialize or upload failure leaves the store unchanged, a cleanup
failure happens after the durable write. -/
def update_status_body (io : StatusIOBehavior) (store : StatusStore)
    (pipeline_id status : String) (progress : ℚ) (message : String)
    (metadata : Option (List (String × String))) (timestamp : ℕ) :
    Except (StatusErr × StatusStore) StatusStore :=
  let record := mkStatusData pipeline_id status progress message metadata timestamp
  if io.serializeOk = false then
    .error (.serializeFailed, store)
  else if io.uploadOk = false then
    .error (.uploadFailed, store)
  else
    let store' := putBlob store (statusBlobName pipeline_id) record
    if io.cleanupOk = false then
      .error (.cleanupFailed, store')
    else
      .ok store'

/-- Embeds `PipelineStatus.update_status` (`pipeline_utils.py:194`-`222`): the
body wrapped in `try/except` — any exception is caught and the function
returns `False`; it returns `True` only when every step succeeded. -/
def update_status (io : StatusIOBehavior) (store : StatusStore)
    (pipeline_id status : String) (progress : ℚ) (message : String)
    (metadata : Option (List (String × String))) (timestamp : ℕ) :
    StatusStore × Bool :=
  match update_status_body io store pipeline_id status progress message
      metadata timestamp with
  | .ok store' => (store', true)
  | .error (_, store') => (store', false)

/-! ## C7: amplitude normalization -/

/-- C7: `normalize_audio` yields a signal of maximum absolute amplitude
at most 1.0, the output is all-zero iff the input is all-zero, and when
the peak absolute amplitude is zero the input passes through unchanged
(so no division by zero ever occurs). -/
theorem normalize_audio_spec (audio : List ℚ) :
    (∀ x ∈ normalize_audio audio, |x| ≤ 1) ∧
    ((∀ x ∈ normalize_audio audio, x = 0) ↔ ∀ x ∈ audio, x = 0) ∧
    (peakAbs audio = 0 → normalize_audio audio = audio) := by
  by_cases h : peakAbs audio > 0
  · refine ⟨?_, ⟨?_, ?_⟩, ?_⟩
    · intro x hx
      rw [normalize_audio, if_pos h] at hx
      obtain ⟨a, ha, rfl⟩ := List.mem_map.mp hx
      rw [abs_div, abs_of_pos h, div_le_one h]
      exact abs_le_peakAbs audio a ha
    · intro hz x hx
      have hmem : x / peakAbs audio ∈ normalize_audio audio := by
        rw [normalize_audio, if_pos h]
        exact List.mem_map_of_mem _ hx
      have hx0 := hz _ hmem
      rcases div_eq_zero_iff.mp hx0 with h0 | h0
      · exact h0
      · exact absurd (h0 ▸ h) (lt_irrefl 0)
    · intro hz
      have h0 := (peakAbs_eq_zero_iff audio).mpr hz
      exact absurd (h0 ▸ h) (lt_irrefl 0)
    · intro h0
      exact absurd (h0 ▸ h) (lt_irrefl 0)
  · have h0 : peakAbs audio = 0 := le_antisymm (not_lt.mp h) (peakAbs_nonneg audio)
    have hid : normalize_audio audio = audio := by
      rw [normalize_audio, if_neg h]
    refine ⟨?_, by rw [hid], fun _ => hid⟩
    intro x hx
    rw [hid] at hx
    have hx0 := (peakAbs_eq_zero_iff audio).mp h0 x hx
    simp [hx0]

/-- Witness for C7 at concrete inputs: a silent signal passes through
unchanged and a non-silent signal is scaled into `[-1, 1]`. -/
theorem normalize_audio_spec_witness :
    peakAbs [(0 : ℚ), 0] = 0 ∧ normalize_audio [(0 : ℚ), 0] = [0, 0] ∧
    (∀ x ∈ normalize_audio [(1 : ℚ), -2], |x| ≤ 1) := by
  refine ⟨by decide, (normalize_audio_spec [0, 0]).2.2 (by decide), ?_⟩
  exact (normalize_audio_spec [1, -2]).1

/-! ## C8: fixed-length framing -/

/-- C8: `trim_or_pad_audio` returns a signal of exactly the target
length — truncating when longer, zero-padding at the end when shorter,
unchanged when equal — and with no explicit target the target defaults
to `max_duration * sample_rate`. -/
theorem trim_or_pad_audio_spec (cfg : PreprocConfig) (audio : List ℚ)
    (target : ℕ) :
    (trim_or_pad_audio cfg audio (some target)).length = target ∧
    (audio.length > target →
      trim_or_pad_audio cfg audio (some target) = audio.take target) ∧
    (audio.length < target →
      trim_or_pad_audio cfg audio (some target) =
        audio ++ List.replicate (target - audio.length) 0) ∧
    (audio.length = target →
      trim_or_pad_audio cfg audio (some target) = audio) ∧
    trim_or_pad_audio cfg audio none =
      trim_or_pad_audio cfg audio (some (defaultTargetLength cfg)) := by
  refine ⟨?_, ?_, ?_, ?_, rfl⟩
  · by_cases h1 : audio.length > target
    · rw [trim_or_pad_audio]
      simp only [Option.getD_some, if_pos h1, List.length_take]
      omega
    · by_cases h2 : audio.length < target
      · rw [trim_or_pad_audio]
        simp only [Option.getD_some, if_neg h1, if_pos h2,
          List.length_append, List.length_replicate]
        omega
      · rw [trim_or_pad_audio]
        simp only [Option.getD_some, if_neg h1, if_neg h2]
        omega
  · intro h1
    rw [trim_or_pad_audio]
    simp only [Option.getD_some, if_pos h1]
  · intro h2
    rw [trim_or_pad_audio]
    simp only [Option.getD_some, if_neg (by omega : ¬ audio.length > target),
      if_pos h2]
  · intro h3
    rw [trim_or_pad_audio]
    simp only [Option.getD_some, if_neg (by omega : ¬ audio.length > target),
      if_neg (by omega : ¬ audio.length < target)]

/-- Witness for C8 at concrete inputs: truncation, padding, and the
default target for the default configuration. -/
theorem trim_or_pad_audio_spec_witness :
    (trim_or_pad_audio stdConfig [1, 2, 3] (some 2)).length = 2 ∧
    trim_or_pad_audio stdConfig [1, 2, 3] (some 2) = [1, 2] ∧
    trim_or_pad_audio stdConfig [1] (some 3) = [1, 0, 0] ∧
    defaultTargetLength stdConfig = 661500 := by
  refine ⟨(trim_or_pad_audio_spec stdConfig [1, 2, 3] 2).1, ?_, ?_, ?_⟩
  · rw [(trim_or_pad_audio_spec stdConfig [1, 2, 3] 2).2.1 (by decide)]
    decide
  · rw [(trim_or_pad_audio_spec stdConfig [1] 3).2.2.1 (by decide)]
    decide
  · simp only [defaultTargetLength, stdConfig]
    norm_num
    rfl

/-! ## C9: augmentation soft-fail -/

/-- C9: when the underlying time-stretch or pitch-shift transform
raises, the wrapper returns the unmodified input signal and never
propagates the exception (the wrappers are total functions into plain
signals); when the transform succeeds its result is returned. -/
theorem augmentation_soft_fail
    (slib plib : List ℚ → ℚ → Except AugError (List ℚ))
    (audio : List ℚ) (rate n_steps : ℚ) :
    (∀ e, slib audio rate = .error e → time_stretch slib audio rate = audio) ∧
    (∀ a, slib audio rate = .ok a → time_stretch slib audio rate = a) ∧
    (∀ e, plib audio n_steps = .error e →
      pitch_shift plib audio n_steps = audio) ∧
    (∀ a, plib audio n_steps = .ok a → pitch_shift plib audio n_steps = a) := by
  refine ⟨?_, ?_, ?_, ?_⟩ <;> intro x hx <;>
    simp [time_stretch, pitch_shift, hx]

/-- A librosa transform that always raises. -/
def alwaysFailingTransform : List ℚ → ℚ → Except AugError (List ℚ) :=
  fun _ _ => .error .transformFailed

/-- Witness for C9: with an always-raising transform, both wrappers
return the input unchanged. -/
theorem augmentation_soft_fail_witness :
    time_stretch alwaysFailingTransform [1, 2] (11/10) = [1, 2] ∧
    pitch_shift alwaysFailingTransform [1, 2] 1 = [1, 2] := by
  have h := augmentation_soft_fail alwaysFailingTransform
    alwaysFailingTransform [1, 2] (11/10) 1
  exact ⟨h.1 .transformFailed rfl, h.2.2.1 .transformFailed rfl⟩

/-! ## C2: per-file error handling -/

/-- A small but legal preprocessor configuration used for concrete
inputs: sample rate 1 Hz, durations in `[1, 30]` seconds. -/
def tinyConfig : PreprocConfig :=
  { sample_rate := 1, n_fft := 2048, hop_length := 512, n_mels := 80
    max_duration := 30, min_duration := 1 }

/-- A file that decodes to a two-sample signal of valid duration but
whose feature extraction raises. -/
def extractFailFile : AudioFile :=
  { path := "clip.wav", load := .ok [1, 1], extractOk := false }

/-- A file whose decode raises. -/
def badFile : AudioFile :=
  { path := "corrupt.wav", load := .error (), extractOk := true }

/-- A file that decodes to an empty signal: duration 0 is below
`min_duration`, a skip. -/
def skipFile : AudioFile :=
  { path := "short.wav", load := .ok [], extractOk := true }

/-- A file that decodes and processes successfully. -/
def goodFile : AudioFile :=
  { path := "good.wav", load := .ok [1, 1], extractOk := true }

theorem validate_tiny_pair : validate_audio_duration tinyConfig [1, 1] = true := by
  simp only [validate_audio_duration, tinyConfig, decide_eq_true_eq]
  norm_num

/-- C2 counterexample: a file of valid duration whose feature
extraction raises.  The body raises a typed extraction error, yet
`process_audio_file` returns `None` — indistinguishable from a
duration skip and not propagated to the caller. -/
theorem process_audio_file_swallows_errors :
    validate_audio_duration tinyConfig [1, 1] = true ∧
    process_audio_file_body tinyConfig extractFailFile = .error .extractError ∧
    process_audio_file tinyConfig extractFailFile = none := by
  refine ⟨validate_tiny_pair, ?_, ?_⟩
  · simp [process_audio_file_body, extractFailFile, validate_tiny_pair]
  · simp [process_audio_file, process_audio_file_body, extractFailFile,
      validate_tiny_pair]

/-- C2 (amended): `process_audio_file` returns `None` exactly when the
decode raises, the duration validation fails, or the feature extraction
raises; every typed error of the body is caught and converted into
`None`, so no error reaches the caller. -/
theorem process_audio_file_none_iff (cfg : PreprocConfig) (f : AudioFile) :
    (process_audio_file cfg f = none ↔
      ∀ audio, f.load = .ok audio →
        validate_audio_duration cfg audio = false ∨ f.extractOk = false) ∧
    (∀ e, process_audio_file_body cfg f = .error e →
      process_audio_file cfg f = none) := by
  constructor
  · cases hload : f.load with
    | error u =>
        simp [process_audio_file, process_audio_file_body, hload]
    | ok audio =>
        by_cases hv : validate_audio_duration cfg audio = false
        · simp [process_audio_file, process_audio_file_body, hload, hv]
        · have hv' : validate_audio_duration cfg audio = true :=
            Bool.not_eq_false _ |>.mp hv
          by_cases he : f.extractOk = false
          · simp [process_audio_file, process_audio_file_body, hload, hv', he]
          · have he' : f.extractOk = true := Bool.not_eq_false _ |>.mp he
            simp [process_audio_file, process_audio_file_body, hload, hv', he']
  · intro e he
    simp [process_audio_file, he]

/-- Witness for C2 (amended): a decode failure yields `None` through the
catch-all handler. -/
theorem process_audio_file_none_iff_witness :
    process_audio_file tinyConfig badFile = none := by
  exact (process_audio_file_none_iff tinyConfig badFile).2 .loadError
    (by simp [process_audio_file_body, badFile])

/-! ## C3: batch accounting -/

/-- Every file falls in exactly one of the three outcome classes:
processed record, duration skip, or hard failure. -/
theorem process_audio_files_accounting (cfg : PreprocConfig)
    (files : List AudioFile) :
    (process_audio_files cfg files).length
      + files.countP (isDurationSkip cfg)
      + files.countP (isHardFailure cfg) = files.length := by
  induction files with
  | nil => simp [process_audio_files]
  | cons f t ih =>
      simp only [process_audio_files, List.filterMap_cons, List.countP_cons,
        List.length_cons] at *
      cases hload : f.load with
      | error u =>
          have h1 : process_audio_file cfg f = none := by
            simp [process_audio_file, process_audio_file_body, hload]
          have h2 : isDurationSkip cfg f = false := by
            simp [isDurationSkip, hload]
          have h3 : isHardFailure cfg f = true := by
            simp [isHardFailure, hload]
          simp [h1, h2, h3]
          omega
      | ok audio =>
          cases hv : validate_audio_duration cfg audio with
          | false =>
              have h1 : process_audio_file cfg f = none := by
                simp [process_audio_file, process_audio_file_body, hload, hv]
              have h2 : isDurationSkip cfg f = true := by
                simp [isDurationSkip, hload, hv]
              have h3 : isHardFailure cfg f = false := by
                simp [isHardFailure, hload, hv]
              simp [h1, h2, h3]
              omega
          | true =>
              cases he : f.extractOk with
              | false =>
                  have h1 : process_audio_file cfg f = none := by
                    simp [process_audio_file, process_audio_file_body,
                      hload, hv, he]
                  have h2 : isDurationSkip cfg f = false := by
                    simp [isDurationSkip, hload, hv]
                  have h3 : isHardFailure cfg f = true := by
                    simp [isHardFailure, hload, hv, he]
                  simp [h1, h2, h3]
                  omega
              | true =>
                  have h1 : process_audio_file cfg f = some
                      { file_path := f.path
                        audio_data :=
                          trim_or_pad_audio cfg (normalize_audio audio) none
                        sample_rate := cfg.sample_rate
                        duration :=
                          ((trim_or_pad_audio cfg (normalize_audio audio)
                              none).length : ℚ) / (cfg.sample_rate : ℚ) } := by
                    simp [process_audio_file, process_audio_file_body,
                      hload, hv, he]
                  have h2 : isDurationSkip cfg f = false := by
                    simp [isDurationSkip, hload, hv]
                  have h3 : isHardFailure cfg f = false := by
                    simp [isHardFailure, hload, hv, he]
                  simp [h1, h2, h3]
                  omega

/-- C3: for every batch of `N` input files processed in any completion
order (the worker pool yields results as they complete), the returned
collection has between 0 and `N` records, its size satisfies
`size + duration-skips + hard failures = N`, and hence no per-file
failure aborts the remaining files of the batch. -/
theorem process_audio_files_contract (cfg : PreprocConfig)
    (files completionOrder : List AudioFile)
    (hperm : completionOrder.Perm files) :
    (process_audio_files cfg completionOrder).length ≤ files.length ∧
    (process_audio_files cfg completionOrder).length
      + files.countP (isDurationSkip cfg)
      + files.countP (isHardFailure cfg) = files.length := by
  have hlen : (process_audio_files cfg completionOrder).length
      = (process_audio_files cfg files).length :=
    (hperm.filterMap (process_audio_file cfg)).length_eq
  rw [hlen]
  have hacc := process_audio_files_accounting cfg files
  exact ⟨by omega, hacc⟩

/-- Witness for C3: a batch with one success, one duration skip and one
decode failure yields one record and the accounting identity
`1 + 1 + 1 = 3`. -/
theorem process_audio_files_contract_witness :
    ((process_audio_files tinyConfig [goodFile, skipFile, badFile]).length ≤ 3 ∧
      (process_audio_files tinyConfig [goodFile, skipFile, badFile]).length
        + [goodFile, skipFile, badFile].countP (isDurationSkip tinyConfig)
        + [goodFile, skipFile, badFile].countP (isHardFailure tinyConfig) = 3) ∧
    (process_audio_files tinyConfig [goodFile, skipFile, badFile]).length = 1 ∧
    [goodFile, skipFile, badFile].countP (isDurationSkip tinyConfig) = 1 ∧
    [goodFile, skipFile, badFile].countP (isHardFailure tinyConfig) = 1 := by
  have hmain := process_audio_files_contract tinyConfig
    [goodFile, skipFile, badFile] [goodFile, skipFile, badFile]
    (List.Perm.refl _)
  have hskip : validate_audio_duration tinyConfig [] = false := by
    simp only [validate_audio_duration, tinyConfig, decide_eq_false_iff_not]
    norm_num
  refine ⟨by simpa using hmain, ?_, ?_, ?_⟩
  · simp [process_audio_files, process_audio_file, process_audio_file_body,
      goodFile, skipFile, badFile, validate_tiny_pair, hskip]
  · simp [isDurationSkip, goodFile, skipFile, badFile, validate_tiny_pair,
      hskip]
  · simp [isHardFailure, goodFile, skipFile, badFile, validate_tiny_pair,
      hskip]

/-! ## C1: feature-vector lengths under augmentation -/

/-- C1: at the default configuration the fit-length output is 661500
samples, but the `time_stretch(rate=1.1)` variant appended by
`augment_data` is shorter, so after feature re-extraction its vector
length (96 frames-worth per frame column: 80 mel + 13 MFCC + 3
descriptors) differs from the other three records of the fan-out — the
vectors of one batch do NOT all have equal length. -/
theorem augment_vector_length_mismatch :
    defaultTargetLength stdConfig = 661500 ∧
    augmentedVectorLengths stdConfig.n_mels 13 stdConfig.hop_length 661500
      = [124032, 124032, 112800, 124032] ∧
    featureVectorLength stdConfig.n_mels 13 stdConfig.hop_length
        (timeStretchedLength 661500)
      ≠ featureVectorLength stdConfig.n_mels 13 stdConfig.hop_length 661500 := by
  refine ⟨?_, by decide, by decide⟩
  simp only [defaultTargetLength, stdConfig]
  norm_num
  rfl

/-! ## C4: parallel-stage progress interpolation -/

/-- C4 counterexample: for a batch of one file the trace of progress
values written by the processing stage is `[0.3, 0.3]` — after the
first (and only) completion the stage reports 0.3, not
`0.3 + (1/1)·0.4 = 0.7`, and 0.7 is never reported by the stage. -/
theorem processFiles_progress_off_by_one :
    processFilesProgressTrace 1 = [3/10, 3/10] ∧
    ¬ (3/10 : ℚ) = 3/10 + ((1 : ℚ) / 1) * (4/10) := by
  constructor
  · simp only [processFilesProgressTrace, processFilesProgress,
      List.range_succ, List.range_zero, List.nil_append, List.map_cons,
      List.map_nil]
    norm_num
  · norm_num

/-- C4 (amended): after the `k`-th completion (`k = 1..N`) the parallel
processing stage reports progress `0.3 + ((k-1)/N)·0.4` (the index used
is the 0-based completion count), and every value the stage writes is
strictly below 0.7 — the value 0.7 is first written by the next stage. -/
theorem processFilesProgressTrace_spec (N k : ℕ) (hk : 1 ≤ k) (hkN : k ≤ N) :
    (processFilesProgressTrace N)[k]?
      = some (3/10 + (((k : ℚ) - 1) / (N : ℚ)) * (4/10)) ∧
    ∀ v ∈ processFilesProgressTrace N, v < 7/10 := by
  have hN : 0 < N := lt_of_lt_of_le hk hkN
  constructor
  · obtain ⟨j, rfl⟩ : ∃ j, k = j + 1 := ⟨k - 1, by omega⟩
    have hj : j < N := by omega
    simp only [processFilesProgressTrace, processFilesProgress,
      List.getElem?_cons_succ, List.getElem?_map, List.getElem?_range hj,
      Option.map_some']
    rw [Option.some_inj]
    push_cast
    ring
  · intro v hv
    simp only [processFilesProgressTrace, List.mem_cons, List.mem_map,
      List.mem_range] at hv
    rcases hv with rfl | ⟨i, hi, rfl⟩
    · norm_num
    · simp only [processFilesProgress]
      have h1 : (i : ℚ) / (N : ℚ) < 1 := by
        rw [div_lt_one (by positivity)]
        exact_mod_cast hi
      have h0 : (0 : ℚ) ≤ (i : ℚ) / (N : ℚ) := by positivity
      nlinarith

/-- Witness for C4 (amended): for a batch of one file the entry after
the first completion is `0.3 + (0/1)·0.4 = 0.3`. -/
theorem processFilesProgressTrace_spec_witness :
    (processFilesProgressTrace 1)[1]?
      = some (3/10 + (((1 : ℚ) - 1) / (1 : ℚ)) * (4/10)) :=
  (processFilesProgressTrace_spec 1 1 (le_refl 1) (le_refl 1)).1

/-! ## C5: monotonicity of the run's progress values -/

/-- The shape shared by the three in-stage progress traces: the stage
entry value followed by `base + (i/n)·width` for `i = 0..n-1`. -/
def stageTrace (base width : ℚ) (n : ℕ) : List ℚ :=
  base :: (List.range n).map (fun i : ℕ => base + ((i : ℚ) / (n : ℚ)) * width)

theorem downloadProgressTrace_eq (n : ℕ) :
    downloadProgressTrace n = stageTrace (1/10) (2/10) n := rfl

theorem processFilesProgressTrace_eq (n : ℕ) :
    processFilesProgressTrace n = stageTrace (3/10) (4/10) n := rfl

theorem augmentProgressTrace_eq (n : ℕ) :
    augmentProgressTrace n = stageTrace (7/10) (15/100) n := rfl

theorem stageTrace_mem_bounds (base width : ℚ) (hw : 0 ≤ width) (n : ℕ) :
    ∀ v ∈ stageTrace base width n, base ≤ v ∧ v ≤ base + width := by
  intro v hv
  simp only [stageTrace, List.mem_cons, List.mem_map, List.mem_range] at hv
  rcases hv with rfl | ⟨i, hi, rfl⟩
  · exact ⟨le_refl _, le_add_of_nonneg_right hw⟩
  · have hn : 0 < (n : ℚ) := by
      have hn0 : 0 < n := by omega
      exact_mod_cast hn0
    have h1 : (i : ℚ) / (n : ℚ) ≤ 1 := by
      rw [div_le_one hn]
      exact_mod_cast le_of_lt hi
    have h0 : (0 : ℚ) ≤ (i : ℚ) / (n : ℚ) :=
      div_nonneg (Nat.cast_nonneg i) (Nat.cast_nonneg n)
    constructor
    · nlinarith
    · nlinarith

theorem stageTrace_pairwise (base width : ℚ) (hw : 0 ≤ width) (n : ℕ) :
    List.Pairwise (· ≤ ·) (stageTrace base width n) := by
  rw [stageTrace, List.pairwise_cons]
  constructor
  · intro v hv
    simp only [List.mem_map, List.mem_range] at hv
    obtain ⟨i, _, rfl⟩ := hv
    have h0 : (0 : ℚ) ≤ (i : ℚ) / (n : ℚ) :=
      div_nonneg (Nat.cast_nonneg i) (Nat.cast_nonneg n)
    nlinarith
  · refine (List.pairwise_lt_range n).map _ ?_
    intro a b hab
    have hd : (a : ℚ) / (n : ℚ) ≤ (b : ℚ) / (n : ℚ) := by
      rcases Nat.eq_zero_or_pos n with hn | hn
      · subst hn
        norm_num
      · have hn' : 0 < (n : ℚ) := by exact_mod_cast hn
        exact (div_le_div_iff_of_pos_right hn').mpr
          (by exact_mod_cast le_of_lt hab)
    nlinarith

/-- C5 counterexample: a run of one downloaded file that fails in the
augmentation stage writes the progress values
`[0.1, 0.1, 0.3, 0.3, 0.7, 0.0]` — the terminal `failed` update resets
progress to 0.0, so the sequence is not monotonically non-decreasing. -/
theorem pipeline_progress_not_monotone :
    pipelineFailAtAugmentTrace 1 = [1/10, 1/10, 3/10, 3/10, 7/10, 0] ∧
    ¬ List.Chain' (· ≤ ·) (pipelineFailAtAugmentTrace 1) := by
  have h : pipelineFailAtAugmentTrace 1 = [1/10, 1/10, 3/10, 3/10, 7/10, 0] := by
    simp only [pipelineFailAtAugmentTrace, downloadProgressTrace,
      processFilesProgressTrace, downloadProgress, processFilesProgress,
      List.range_succ, List.range_zero, List.nil_append, List.map_cons,
      List.map_nil, List.cons_append]
    norm_num
  refine ⟨h, ?_⟩
  rw [h]
  simp only [List.chain'_cons, List.chain'_singleton, and_true]
  norm_num

/-- C5 (amended): on the success path the progress values written by
the pipeline's stages are monotonically non-decreasing (every earlier
value is at most every later one) and lie within `[0, 1]`; the failure
path also stays within `[0, 1]`, but its terminal `failed` updates
(stage-entry progress, then 0.0 from the top-level handler) may
decrease. -/
theorem pipelineSuccessTrace_monotone_bounded (nFiles nRecs : ℕ) :
    List.Pairwise (· ≤ ·) (pipelineSuccessTrace nFiles nRecs) ∧
    (∀ v ∈ pipelineSuccessTrace nFiles nRecs, 0 ≤ v ∧ v ≤ 1) ∧
    (∀ v ∈ pipelineFailAtAugmentTrace nFiles, 0 ≤ v ∧ v ≤ 1) := by
  have hA := stageTrace_mem_bounds (1/10) (2/10) (by norm_num) nFiles
  have hB := stageTrace_mem_bounds (3/10) (4/10) (by norm_num) nFiles
  have hC := stageTrace_mem_bounds (7/10) (15/100) (by norm_num) nRecs
  have hAp := stageTrace_pairwise (1/10) (2/10) (by norm_num) nFiles
  have hBp := stageTrace_pairwise (3/10) (4/10) (by norm_num) nFiles
  have hCp := stageTrace_pairwise (7/10) (15/100) (by norm_num) nRecs
  refine ⟨?_, ?_, ?_⟩
  · simp only [pipelineSuccessTrace, downloadProgressTrace_eq,
      processFilesProgressTrace_eq, augmentProgressTrace_eq]
    rw [List.pairwise_append, List.pairwise_append, List.pairwise_append]
    refine ⟨⟨⟨hAp, hBp, ?_⟩, hCp, ?_⟩, ?_, ?_⟩
    · intro a ha b hb
      have h1 := (hA a ha).2
      have h2 := (hB b hb).1
      linarith
    · intro a ha b hb
      have h2 := (hC b hb).1
      rcases List.mem_append.mp ha with ha' | ha'
      · have h1 := (hA a ha').2
        linarith
      · have h1 := (hB a ha').2
        linarith
    · norm_num [List.pairwise_cons]
    · intro a ha b hb
      have hb' : 85/100 ≤ b := by
        simp only [List.mem_cons, List.not_mem_nil, or_false] at hb
        rcases hb with rfl | rfl | rfl <;> norm_num
      rcases List.mem_append.mp ha with ha' | ha'
      · rcases List.mem_append.mp ha' with ha'' | ha''
        · have h1 := (hA a ha'').2
          linarith
        · have h1 := (hB a ha'').2
          linarith
      · have h1 := (hC a ha').2
        linarith
  · intro v hv
    simp only [pipelineSuccessTrace, downloadProgressTrace_eq,
      processFilesProgressTrace_eq, augmentProgressTrace_eq,
      List.mem_append] at hv
    rcases hv with ((hv | hv) | hv) | hv
    · have h1 := hA v hv
      constructor <;> linarith [h1.1, h1.2]
    · have h1 := hB v hv
      constructor <;> linarith [h1.1, h1.2]
    · have h1 := hC v hv
      constructor <;> linarith [h1.1, h1.2]
    · simp only [List.mem_cons, List.not_mem_nil, or_false] at hv
      rcases hv with rfl | rfl | rfl <;> norm_num
  · intro v hv
    simp only [pipelineFailAtAugmentTrace, downloadProgressTrace_eq,
      processFilesProgressTrace_eq, List.mem_append] at hv
    rcases hv with (hv | hv) | hv
    · have h1 := hA v hv
      constructor <;> linarith [h1.1, h1.2]
    · have h1 := hB v hv
      constructor <;> linarith [h1.1, h1.2]
    · simp only [List.mem_cons, List.not_mem_nil, or_false] at hv
      rcases hv with rfl | rfl <;> norm_num

/-! ## C6 and C10: status tracker -/

theorem putBlob_putBlob (s : StatusStore) (k : String) (r r' : StatusRecord) :
    putBlob (putBlob s k r) k r' = putBlob s k r' := by
  induction s with
  | nil => simp [putBlob]
  | cons hd tl ih =>
      obtain ⟨k', r''⟩ := hd
      by_cases h : k' = k
      · simp [putBlob, h]
      · simp [putBlob, h, ih]

theorem putBlob_length_congr (s : StatusStore) (k : String)
    (r r' : StatusRecord) :
    (putBlob s k r).length = (putBlob s k r').length := by
  induction s with
  | nil => rfl
  | cons hd tl ih =>
      obtain ⟨k', r''⟩ := hd
      by_cases h : k' = k <;> simp [putBlob, h, ih]

theorem putBlob_map_fst_congr (s : StatusStore) (k : String)
    (r r' : StatusRecord) :
    (putBlob s k r).map Prod.fst = (putBlob s k r').map Prod.fst := by
  induction s with
  | nil => rfl
  | cons hd tl ih =>
      obtain ⟨k', r''⟩ := hd
      by_cases h : k' = k <;> simp [putBlob, h, ih]

theorem update_status_ok_fst (store : StatusStore) (pid st : String)
    (progress : ℚ) (msg : String) (meta : Option (List (String × String)))
    (t : ℕ) :
    (update_status statusIOOk store pid st progress msg meta t).1
      = putBlob store (statusBlobName pid)
          (mkStatusData pid st progress msg meta t) := by
  simp [update_status, update_status_body, statusIOOk]

/-- C6 counterexample: two calls of `update_status` with identical
arguments but consecutive clock readings (timestamps 0 and 1) leave the
persisted record different — the second call overwrites the record's
timestamp field, so the store is not observably identical to the store
after the first call. -/
theorem update_status_not_idempotent :
    (update_status statusIOOk
        ((update_status statusIOOk [] "p" "running" 1 "go" none 0).1)
        "p" "running" 1 "go" none 1).1
      ≠ (update_status statusIOOk [] "p" "running" 1 "go" none 0).1 := by
  simp only [update_status, update_status_body, statusIOOk, putBlob,
    mkStatusData, statusBlobName]
  decide

/-- C6 (amended): a second `update_status` call with identical
arguments overwrites the same single entry: the resulting store maps
the same keys (no duplicate entry is created), has the same size, and
its record is identical to the first call's record except for the
timestamp field; when the two calls observe the same clock value the
stores are exactly equal. -/
theorem update_status_idempotent_mod_timestamp (store : StatusStore)
    (pid st : String) (progress : ℚ) (msg : String)
    (meta : Option (List (String × String))) (t1 t2 : ℕ) :
    (update_status statusIOOk
        ((update_status statusIOOk store pid st progress msg meta t1).1)
        pid st progress msg meta t2).1
      = putBlob store (statusBlobName pid)
          (mkStatusData pid st progress msg meta t2) ∧
    ((update_status statusIOOk
        ((update_status statusIOOk store pid st progress msg meta t1).1)
        pid st progress msg meta t2).1).map Prod.fst
      = ((update_status statusIOOk store pid st progress msg meta t1).1).map
          Prod.fst ∧
    ((update_status statusIOOk
        ((update_status statusIOOk store pid st progress msg meta t1).1)
        pid st progress msg meta t2).1).length
      = ((update_status statusIOOk store pid st progress msg meta t1).1).length ∧
    mkStatusData pid st progress msg meta t2
      = { mkStatusData pid st progress msg meta t1 with timestamp := t2 } ∧
    (t2 = t1 →
      (update_status statusIOOk
          ((update_status statusIOOk store pid st progress msg meta t1).1)
          pid st progress msg meta t2).1
        = (update_status statusIOOk store pid st progress msg meta t1).1) := by
  have h1 := update_status_ok_fst store pid st progress msg meta t1
  have h2 := update_status_ok_fst
    ((update_status statusIOOk store pid st progress msg meta t1).1)
    pid st progress msg meta t2
  have hkey : (update_status statusIOOk
      ((update_status statusIOOk store pid st progress msg meta t1).1)
      pid st progress msg meta t2).1
      = putBlob store (statusBlobName pid)
          (mkStatusData pid st progress msg meta t2) := by
    rw [h2, h1, putBlob_putBlob]
  refine ⟨hkey, ?_, ?_, rfl, ?_⟩
  · rw [hkey, h1]
    exact putBlob_map_fst_congr store (statusBlobName pid) _ _
  · rw [hkey, h1]
    exact putBlob_length_congr store (statusBlobName pid) _ _
  · intro ht
    rw [hkey, h1, ht]

/-- Witness for C6 (amended): with equal clock readings the second call
leaves the store exactly as the first left it. -/
theorem update_status_idempotent_mod_timestamp_witness :
    (update_status statusIOOk
        ((update_status statusIOOk [] "p" "done" 1 "ok" none 3).1)
        "p" "done" 1 "ok" none 3).1
      = (update_status statusIOOk [] "p" "done" 1 "ok" none 3).1 :=
  (update_status_idempotent_mod_timestamp [] "p" "done" 1 "ok" none 3 3).2.2.2.2
    rfl

/-- C10: `update_status` never raises to its caller: every failure of
the serialize, upload or cleanup step is caught and mapped to the
result `False` (with the store as the completed steps left it), the
result is `True` exactly when all three steps succeed, and a `True`
result means the durable write of the status record happened. -/
theorem update_status_never_raises (io : StatusIOBehavior)
    (store : StatusStore) (pid st : String) (progress : ℚ) (msg : String)
    (meta : Option (List (String × String))) (t : ℕ) :
    ((update_status io store pid st progress msg meta t).2 = true ↔
      io.serializeOk = true ∧ io.uploadOk = true ∧ io.cleanupOk = true) ∧
    (∀ e s', update_status_body io store pid st progress msg meta t
        = .error (e, s') →
      update_status io store pid st progress msg meta t = (s', false)) ∧
    ((update_status io store pid st progress msg meta t).2 = true →
      (update_status io store pid st progress msg meta t).1
        = putBlob store (statusBlobName pid)
            (mkStatusData pid st progress msg meta t)) := by
  refine ⟨?_, ?_, ?_⟩
  · cases hso : io.serializeOk <;> cases huo : io.uploadOk <;>
      cases hco : io.cleanupOk <;>
      simp [update_status, update_status_body, hso, huo, hco]
  · intro e s' h
    simp [update_status, h]
  · intro h
    cases hso : io.serializeOk <;> cases huo : io.uploadOk <;>
        cases hco : io.cleanupOk <;>
      simp [update_status, update_status_body, hso, huo, hco] at h ⊢

/-- A status writer whose GCS upload raises. -/
def failUploadIO : StatusIOBehavior :=
  { serializeOk := true, uploadOk := false, cleanupOk := true }

/-- Witness for C10: when the upload raises, `update_status` catches the
exception and returns `False` with the store unchanged. -/
theorem update_status_never_raises_witness :
    update_status failUploadIO [] "p" "running" 1 "go" none 0 = ([], false) := by
  apply (update_status_never_raises failUploadIO [] "p" "running" 1 "go"
    none 0).2.1 .uploadFailed
  simp [update_status_body, failUploadIO]

end VoiceCast
